import Mathlib

/-!
Shallow embedding of the template-instantiation engine of the
`custom-mcp-template` initializer (`src/initialize.ts`):

* `copyRecursiveSync` — the recursive tree copy with exclusion matching,
* `updatePackageJson` / `transformManifest` — the manifest rewrite.

Filesystem model: the destination file system is a map from path strings to
entries (`FS`); the source tree walked by the recursion is an inductive tree
(`FsTree`/`FsForest`), mirroring the fact that the recursion is driven by
`fs.existsSync` / `fs.statSync().isDirectory()` / `fs.readdirSync` on the
source.  Paths are plain strings joined with `"/"`, exactly as
`path.join`/`path.relative` produce on POSIX; the exclusion test is the raw
JavaScript `String.prototype.startsWith`, i.e. a character-sequence prefix
test, embedded as `strStartsWith`.
-/

namespace McpTemplate

/-- A destination file-system entry: a regular file with byte content
(modelled as a string) or a directory. -/
inductive Entry where
| file (content : String)
| dir
deriving DecidableEq, Repr

/-- The destination file system: a map from absolute path strings to
entries; `none` means the path does not exist. -/
def FS : Type := String → Option Entry

/-- `fs.writeFileSync` / `fs.copyFileSync` target update: set the entry at
one path, leaving every other path unchanged. -/
def FS.insert (fs : FS) (p : String) (e : Entry) : FS :=
fun q => if q = p then some e else fs q

/-- JavaScript `String.prototype.startsWith`: the characters of `pre` are a
prefix of the characters of `s` (used at `initialize.ts:47`,
`relativeSourcePath.startsWith(ex)`). -/
def strStartsWith (s pre : String) : Bool :=
pre.data.isPrefixOf s.data

/-- POSIX `path.join` of two segments, as used by the initializer
(`path.join(source, childItemName)` etc.). -/
def joinPath (a b : String) : String :=
if a = "" then b else a ++ "/" ++ b

/-- Split a character list at `'/'` separators (the segment structure of a
POSIX path), keeping empty segments, like `String.splitOn "/"`. -/
def splitSegsAux : List Char → List Char → List String
| [], acc => [String.mk acc.reverse]
| c :: cs, acc =>
    if c = '/' then String.mk acc.reverse :: splitSegsAux cs []
    else splitSegsAux cs (c :: acc)

/-- The `/`-separated segments of a path string. -/
def splitSegs (p : String) : List String :=
splitSegsAux p.data []

/-- Rejoin path segments with `/` separators. -/
def joinSegs : List String → String
| [] => ""
| [s] => s
| s :: rest => s ++ "/" ++ joinSegs rest

/-- POSIX `path.dirname`: drop the last `/`-separated component; a
separator-free path has dirname `"."` (`path.dirname(destination)` at
`initialize.ts:65`). -/
def dirname (p : String) : String :=
let parts := splitSegs p
if parts.length ≤ 1 then "." else joinSegs parts.dropLast

/-- All `/`-separated prefixes of a path, shortest first: the directories
`fs.mkdirSync(p, { recursive: true })` ensures exist. -/
def pathPrefixes (p : String) : List String :=
let parts := splitSegs p
(List.range parts.length).map fun i => joinSegs (parts.take (i + 1))

/-- `fs.mkdirSync(p, { recursive: true })`: create `p` and every missing
ancestor as a directory; entries that already exist are left untouched. -/
def mkdirRecursive (fs : FS) (p : String) : FS :=
fun q => if q ∈ pathPrefixes p then some ((fs q).getD Entry.dir) else fs q

mutual
/-- The source tree walked by the recursion.  `dir` children carry the
entry names returned by `fs.readdirSync`. -/
inductive FsTree where
| file (content : String)
| dir (children : FsForest)
/-- A directory listing: the ordered children of a source directory. -/
inductive FsForest where
| nil
| cons (name : String) (tree : FsTree) (rest : FsForest)
end

/-- Observable console events of the copy routine (the `console.warn` of
`initialize.ts:71`). -/
inductive Event where
| sourceMissingWarn (relPath : String)
deriving DecidableEq, Repr

mutual
/-- Body of `copyRecursiveSync` (`initialize.ts:41-73`) for a source path
that exists, holding the tree `t`.  `rel` is
`path.relative(TEMPLATE_DIR, source)` and `dest` the destination path.
Line-by-line mapping:
* the guard is the exclusion half of line 47,
  `exclude.some(ex => relativeSourcePath.startsWith(ex))` (the `!exists`
  half is handled by `copyRecursiveSync`; children produced by
  `readdirSync` always exist);
* the `dir` arm is lines 52-62 (`mkdirSync(destination, { recursive: true })`
  if the destination is missing, then recurse over `readdirSync` children
  in order, extending `rel` and `dest` by `path.join`);
* the `file` arm is lines 63-69 (`mkdirSync(path.dirname(destination),
  { recursive: true })` if missing, then `copyFileSync`). -/
def copyNode (t : FsTree) (rel dest : String)
    (exclude : List String) (fs : FS) : FS × List Event :=
if exclude.any (fun ex => strStartsWith rel ex) then (fs, [])
else
  match t with
  | .dir children =>
      let fs1 := if (fs dest).isSome then fs else mkdirRecursive fs dest
      copyForest children rel dest exclude fs1
  | .file content =>
      let destDir := dirname dest
      let fs2 := if (fs destDir).isSome then fs else mkdirRecursive fs destDir
      (FS.insert fs2 dest (.file content), [])

/-- The `readdirSync(source).forEach(...)` loop of `initialize.ts:56-62`,
copying each child in order and accumulating console events. -/
def copyForest (f : FsForest) (rel dest : String)
    (exclude : List String) (fs : FS) : FS × List Event :=
match f with
| .nil => (fs, [])
| .cons name t rest =>
    let r := copyNode t (joinPath rel name) (joinPath dest name) exclude fs
    let r2 := copyForest rest rel dest exclude r.1
    (r2.1, r.2 ++ r2.2)
end

/-- `copyRecursiveSync(source, destination, exclude)` of
`initialize.ts:41-73`, entry point.  `tree` is what the source file system
holds at `source`; `none` means `fs.existsSync(source)` is false, in which
case the guard of line 47 (`if (!exists || ...) return;`) returns without
touching the file system and without emitting any event — the
`console.warn('Source path not found, skipping: ...')` of lines 70-72 is
unreachable dead code, because every path on which it would run was
already returned on at line 47. -/
def copyRecursiveSync (tree : Option FsTree) (rel dest : String)
    (exclude : List String) (fs : FS) : FS × List Event :=
match tree with
| none => (fs, [])
| some t => copyNode t rel dest exclude fs

mutual
/-- The destination paths `copyRecursiveSync` copies source entries to: the
node's own destination path and, for directories, those of all children.
These are exactly the paths at which the copy may write an entry that
corresponds to a source entry. -/
def destPathsT : FsTree → String → List String
| .file _, dest => [dest]
| .dir children, dest => dest :: destPathsF children dest
/-- Destination paths of all entries of a directory listing. -/
def destPathsF : FsForest → String → List String
| .nil, _ => []
| .cons name t rest, dest => destPathsT t (joinPath dest name) ++ destPathsF rest dest
end

mutual
/-- The destination already holds a complete copy of the (non-excluded part
of the) source tree rooted at `rel`/`dest`: every non-excluded source file
is present at its destination path with identical content and its parent
directory exists, and every non-excluded source directory exists at its
destination path with all its children complete.  Excluded subtrees are
vacuously complete (the copy never materializes them). -/
def isCompleteT (t : FsTree) (rel dest : String) (exclude : List String)
    (fs : FS) : Bool :=
if exclude.any (fun ex => strStartsWith rel ex) then true
else
  match t with
  | .file content => fs dest == some (.file content) && (fs (dirname dest)).isSome
  | .dir children => (fs dest).isSome && isCompleteF children rel dest exclude fs
/-- A directory listing is completely copied when each child is. -/
def isCompleteF (f : FsForest) (rel dest : String) (exclude : List String)
    (fs : FS) : Bool :=
match f with
| .nil => true
| .cons name t rest =>
    isCompleteT t (joinPath rel name) (joinPath dest name) exclude fs &&
    isCompleteF rest rel dest exclude fs
end

/-! ## Manifest transformation (`updatePackageJson`, `initialize.ts:80-114`) -/

/-- The `scripts` object of a `package.json`: the `build` entry, which the
transformer may rewrite, plus the remaining entries carried over verbatim.
`build = some b` models a string-valued `scripts.build`; its JavaScript
truthiness is `b ≠ ""`. -/
structure Scripts where
build : Option String
rest : List (String × String)
deriving DecidableEq, Repr

/-- The project manifest (`package.json`) as manipulated by
`updatePackageJson`: the fields the code reads or writes, plus `extra` for
all remaining metadata carried over verbatim by `JSON.stringify`.  An
`Option` field is `none` when the key is absent. -/
structure PackageJson where
name : String
version : String
description : String
bin : Option String
author : Option String
repository : Option String
bugs : Option String
homepage : Option String
scripts : Option Scripts
extra : List (String × String)
deriving DecidableEq, Repr

/-- The `ProjectAnswers` record collected by the prompts; an absent or
cleared answer is the empty string (JavaScript falsy). -/
structure Answers where
projectName : String
description : String
deriving DecidableEq, Repr

/-- POSIX `path.basename`: the last `/`-separated component
(`path.basename(targetDir)` at `initialize.ts:88`). -/
def basename (p : String) : String :=
(splitSegs p).getLastD ""

/-- The in-memory manifest rewrite of `initialize.ts:87-105`:
* line 88: `packageJson.name = answers.projectName || path.basename(targetDir)`;
* line 89: `packageJson.version = '0.1.0'`;
* line 90: `packageJson.description = answers.description || ''`;
* lines 94-100: `delete` of `bin`, `author`, `repository`, `bugs`, `homepage`;
* lines 103-105: `if (packageJson.scripts && packageJson.scripts.build) packageJson.scripts.build = 'tsc'`
  (a present `scripts` object is truthy; a string `build` is truthy iff
  non-empty). -/
def transformManifest (pkg : PackageJson) (answers : Answers)
    (targetDirBasename : String) : PackageJson :=
let name := if answers.projectName = "" then targetDirBasename else answers.projectName
let description := if answers.description = "" then "" else answers.description
let scripts :=
  match pkg.scripts with
  | none => none
  | some sc =>
      some (match sc.build with
            | some b => if b = "" then sc else { sc with build := some "tsc" }
            | none => sc)
{ pkg with
  name := name, version := "0.1.0", description := description,
  bin := none, author := none, repository := none, bugs := none,
  homepage := none, scripts := scripts }

/-- A manifest-step error, as surfaced by the `catch` of
`initialize.ts:111-113` (`console.error` with the thrown error's message,
which identifies the failing file). -/
inductive ManifestError where
| manifestReadError (path : String)
| manifestWriteError (path : String)
deriving DecidableEq, Repr

/-- Outcome of `updatePackageJson`: success, or an error logged by the
`catch` block (the function itself never throws to its caller). -/
inductive UpdateOutcome where
| ok
| errorLogged (e : ManifestError)
deriving DecidableEq, Repr

/-- `updatePackageJson(targetDir, answers)` of `initialize.ts:80-114`.

The file system is abstracted to what the function touches:
`templateRead` is the parse result of reading
`path.join(TEMPLATE_DIR, 'package.json')` (`none` when `fs.readFileSync`
throws because the file is missing, or `JSON.parse` throws on invalid
JSON — both land in the same `catch`); `writable` says whether
`fs.writeFileSync(packageJsonPath, ...)` succeeds; `destPrev` is the prior
content of the destination `package.json`.  `fs.writeFileSync` is a
whole-file write: it either persists the complete serialized manifest or
throws leaving the destination as it was.  The first component of the
result is the destination manifest after the call. -/
def updatePackageJson (templateDir targetDir : String)
    (templateRead : Option PackageJson) (writable : Bool)
    (destPrev : Option PackageJson) (answers : Answers) :
    Option PackageJson × UpdateOutcome :=
let packageJsonPath := joinPath targetDir "package.json"
let templatePackageJsonPath := joinPath templateDir "package.json"
match templateRead with
| none => (destPrev, .errorLogged (.manifestReadError templatePackageJsonPath))
| some pkg =>
    let newPkg := transformManifest pkg answers (basename targetDir)
    if writable then (some newPkg, .ok)
    else (destPrev, .errorLogged (.manifestWriteError packageJsonPath))

/-! ## Concrete fixtures used by witness theorems -/

/-- The empty destination file system. -/
def fsEmpty : FS := fun _ => none

/-- A small source tree: `a.txt`, and directory `b` containing `c.txt`. -/
def treeEx : FsTree :=
.dir (.cons "a.txt" (.file "A")
  (.cons "b" (.dir (.cons "c.txt" (.file "C") .nil)) .nil))

/-- A destination that already contains an unrelated `extra.txt` under the
destination root. -/
def fsExtraEx : FS := fun q =>
if q = "/dest/extra.txt" then some (.file "hello") else none

/-- A destination already holding a complete copy of `treeEx` at `/dest`. -/
def fsCopiedEx : FS := fun q =>
if q = "/dest" then some Entry.dir
else if q = "/dest/a.txt" then some (.file "A")
else if q = "/dest/b" then some Entry.dir
else if q = "/dest/b/c.txt" then some (.file "C")
else none

/-- A scripts object whose `build` is the multi-step template build
(compile, then post-process the initializer script). -/
def scEx : Scripts :=
{ build := some "tsc && node patch-initialize.js",
  rest := [("start", "node dist/server.js")] }

/-- A template manifest exercising every rewritten field. -/
def pkgEx : PackageJson :=
{ name := "tmpl", version := "9.9.9", description := "template",
  bin := some "dist/initialize.js", author := some "X",
  repository := some "repo-url", bugs := some "bugs-url",
  homepage := some "home-url",
  scripts := some scEx,
  extra := [("license", "ISC")] }

/-- Concrete prompt answers. -/
def answersEx : Answers := { projectName := "foo", description := "bar" }

/-- Prompt answers where the user cleared both fields. -/
def answersEmptyEx : Answers := { projectName := "", description := "" }

/-! ## Helper lemmas -/

/-- `mkdirSync(..., { recursive: true })` never changes an existing entry:
it only creates directories at paths that held nothing. -/
theorem mkdirRecursive_some (fs : FS) (d q : String) (e : Entry)
    (h : fs q = some e) : mkdirRecursive fs d q = some e := by
unfold mkdirRecursive
split <;> simp [h]

/-- The directory-or-mkdir step of both `copyNode` arms preserves every
existing entry. -/
theorem ensureDir_some (fs : FS) (d q : String) (e : Entry) (h : fs q = some e) :
    (if (fs d).isSome then fs else mkdirRecursive fs d) q = some e := by
split
· exact h
· exact mkdirRecursive_some fs d q e h

/-- A string raw-prefix-starts with itself. -/
theorem strStartsWith_self (e : String) : strStartsWith e e = true := by
simp [strStartsWith, List.isPrefixOf_iff_prefix]

/-- A string raw-prefix-starts with any string it extends. -/
theorem strStartsWith_append (e r : String) : strStartsWith (e ++ r) e = true := by
simp [strStartsWith, List.isPrefixOf_iff_prefix]

/-- Every string raw-prefix-starts with the empty string. -/
theorem strStartsWith_empty (s : String) : strStartsWith s "" = true := by
have h : ("" : String).data = [] := rfl
simp [strStartsWith, h]

/-- When the exclusion test of `initialize.ts:47` fires, `copyNode` returns
without touching the file system or emitting events. -/
theorem copyNode_excluded (t : FsTree) (rel dest : String) (ex : List String)
    (fs : FS) (h : ex.any (fun e => strStartsWith rel e) = true) :
    copyNode t rel dest ex fs = (fs, []) := by
cases t <;> simp [copyNode, h]

/-! ## Claim theorems -/

/-- C1: the claim states that an exclusion entry `e` never excludes a
sibling whose name merely shares a raw string prefix with `e`
(segment-boundary matching).  The code uses the raw
`relativeSourcePath.startsWith(ex)`, so exclusion `"src/foo"` DOES exclude
the sibling file `"src/foobar"`: copying it is a complete no-op.  This
theorem evaluates the embedded code at that failing input, refuting the
claimed behavior. -/
theorem c1_raw_prefix_excludes_sibling :
    copyRecursiveSync (some (FsTree.file "sibling content")) "src/foobar"
      "/proj/src/foobar" ["src/foo"] fsEmpty = (fsEmpty, []) := rfl

/-- C5: for a missing source path, `copyRecursiveSync` is a silent no-op:
the file system is unchanged, no exception is raised, and — contrary to the
claim — NO warning event is emitted, because the `!exists` half of the
line-47 guard returns before the `console.warn` of lines 70-72 can run
(that branch is dead code). -/
theorem c5_missing_source_silent_noop (rel dest : String) (ex : List String)
    (fs : FS) : copyRecursiveSync none rel dest ex fs = (fs, []) := rfl

/-- C3: a source whose template-relative path equals an excluded entry or
is a path descendant of one is skipped entirely: no file-system mutation,
no event, no recursion into children. -/
theorem c3_excluded_subtree_untouched (tree : Option FsTree) (rel dest : String)
    (ex : List String) (fs : FS) (e : String) (he : e ∈ ex)
    (hrel : rel = e ∨ ∃ r, rel = e ++ "/" ++ r) :
    copyRecursiveSync tree rel dest ex fs = (fs, []) := by
have hs : strStartsWith rel e = true := by
  rcases hrel with h | ⟨r, h⟩ <;> rw [h]
  · exact strStartsWith_self e
  · rw [String.append_assoc]
    exact strStartsWith_append e ("/" ++ r)
have hAny : ex.any (fun x => strStartsWith rel x) = true :=
  List.any_eq_true.mpr ⟨e, he, hs⟩
cases tree with
| none => rfl
| some t => exact copyNode_excluded t rel dest ex fs hAny

/-- C3 witness: the concrete exclusion `src/initialize.ts` of the template
skips that exact file. -/
theorem c3_excluded_subtree_untouched_witness :
    ("src/initialize.ts" ∈ ["node_modules", "src/initialize.ts"]) ∧
    copyRecursiveSync (some (FsTree.file "init source")) "src/initialize.ts"
      "/dest/src/initialize.ts" ["node_modules", "src/initialize.ts"] fsEmpty
      = (fsEmpty, []) :=
⟨by decide,
 c3_excluded_subtree_untouched (some (FsTree.file "init source"))
   "src/initialize.ts" "/dest/src/initialize.ts"
   ["node_modules", "src/initialize.ts"] fsEmpty "src/initialize.ts"
   (by decide) (Or.inl rfl)⟩

/-- C10: if the exclusion set contains the empty string, every candidate
(the template root included, whose relative path is empty) passes the raw
prefix test, so `copyRecursiveSync` is a complete no-op whatever the
source and destination. -/
theorem c10_empty_exclusion_total_noop (tree : Option FsTree) (rel dest : String)
    (ex : List String) (fs : FS) (h : "" ∈ ex) :
    copyRecursiveSync tree rel dest ex fs = (fs, []) := by
have hAny : ex.any (fun x => strStartsWith rel x) = true :=
  List.any_eq_true.mpr ⟨"", h, strStartsWith_empty rel⟩
cases tree with
| none => rfl
| some t => exact copyNode_excluded t rel dest ex fs hAny

/-- C10 witness: with exclusion set `[""]` nothing of the example tree is
copied, starting at the template root itself. -/
theorem c10_empty_exclusion_total_noop_witness :
    (("" : String) ∈ [""]) ∧
    copyRecursiveSync (some treeEx) "" "/dest" [""] fsEmpty = (fsEmpty, []) :=
⟨by decide,
 c10_empty_exclusion_total_noop (some treeEx) "" "/dest" [""] fsEmpty (by decide)⟩

mutual
/-- On a destination already holding a complete copy of `t`, `copyNode`
changes nothing and emits nothing: every `mkdirSync` is skipped because the
directory exists, and every `copyFileSync` rewrites identical bytes. -/
theorem copyNode_complete_noop (t : FsTree) (rel dest : String)
    (ex : List String) (fs : FS) (h : isCompleteT t rel dest ex fs = true) :
    copyNode t rel dest ex fs = (fs, []) := by
by_cases hg : ex.any (fun e => strStartsWith rel e) = true
· exact copyNode_excluded t rel dest ex fs hg
· cases t with
  | file content =>
      rw [isCompleteT] at h
      rw [if_neg hg] at h
      simp only [Bool.and_eq_true, beq_iff_eq, Option.isSome_iff_exists] at h
      obtain ⟨hdest, hdir⟩ := h
      rw [copyNode, if_neg hg]
      have h2 : (if (fs (dirname dest)).isSome then fs else
          mkdirRecursive fs (dirname dest)) = fs := by
        rw [if_pos]
        obtain ⟨d, hd⟩ := hdir
        simp [hd]
      simp only [h2]
      refine Prod.ext ?_ rfl
      funext q
      simp only [FS.insert]
      split
      · next hq => rw [hq, hdest]
      · rfl
  | dir children =>
      rw [isCompleteT] at h
      rw [if_neg hg] at h
      simp only [Bool.and_eq_true, Option.isSome_iff_exists] at h
      obtain ⟨hdest, hchildren⟩ := h
      rw [copyNode, if_neg hg]
      have h1 : (if (fs dest).isSome then fs else mkdirRecursive fs dest) = fs := by
        rw [if_pos]
        obtain ⟨d, hd⟩ := hdest
        simp [hd]
      simp only [h1]
      exact copyForest_complete_noop children rel dest ex fs hchildren
/-- On a destination already holding complete copies of every child,
re-copying the listing changes nothing and emits nothing. -/
theorem copyForest_complete_noop (f : FsForest) (rel dest : String)
    (ex : List String) (fs : FS) (h : isCompleteF f rel dest ex fs = true) :
    copyForest f rel dest ex fs = (fs, []) := by
cases f with
| nil => rfl
| cons name t rest =>
    rw [isCompleteF] at h
    simp only [Bool.and_eq_true] at h
    obtain ⟨ht, hrest⟩ := h
    rw [copyForest]
    simp only [copyNode_complete_noop t (joinPath rel name) (joinPath dest name) ex fs ht]
    simp only [copyForest_complete_noop rest rel dest ex fs hrest]
    rfl
end

/-- C7: re-running the copy with the same source tree, destination and
exclusion set against a destination that already holds a complete copy
produces no errors or events and leaves the destination byte-for-byte
unchanged: directory creation is skipped because the destinations exist,
and file copies rewrite identical content. -/
theorem c7_recopy_idempotent (t : FsTree) (rel dest : String) (ex : List String)
    (fs : FS) (h : isCompleteT t rel dest ex fs = true) :
    copyRecursiveSync (some t) rel dest ex fs = (fs, []) :=
copyNode_complete_noop t rel dest ex fs h

/-- C7 witness: re-copying `treeEx` over the already-copied destination
`fsCopiedEx` is a no-op. -/
theorem c7_recopy_idempotent_witness :
    isCompleteT treeEx "src" "/dest" [] fsCopiedEx = true ∧
    copyRecursiveSync (some treeEx) "src" "/dest" [] fsCopiedEx = (fsCopiedEx, []) :=
⟨by decide, c7_recopy_idempotent treeEx "src" "/dest" [] fsCopiedEx (by decide)⟩

mutual
/-- Frame property of `copyNode`: an entry at a path that is not a
destination path of any copied source entry survives the copy unchanged
(directory creation only fills previously empty paths, and file writes hit
destination paths of source entries only). -/
theorem copyNode_frame (t : FsTree) (rel dest : String) (ex : List String)
    (fs : FS) (p : String) (e : Entry) (hp : fs p = some e)
    (hnp : p ∉ destPathsT t dest) : (copyNode t rel dest ex fs).1 p = some e := by
by_cases hg : ex.any (fun x => strStartsWith rel x) = true
· rw [copyNode_excluded t rel dest ex fs hg]
  exact hp
· cases t with
  | file content =>
      rw [copyNode, if_neg hg]
      simp only []
      have hpd : p ≠ dest := by
        intro hq
        exact hnp (by rw [destPathsT, hq]; exact List.mem_singleton.mpr rfl)
      rw [FS.insert, if_neg hpd]
      exact ensureDir_some fs (dirname dest) p e hp
  | dir children =>
      rw [copyNode, if_neg hg]
      simp only []
      have hnf : p ∉ destPathsF children dest := by
        intro hmem
        exact hnp (by rw [destPathsT]; exact List.mem_cons_of_mem dest hmem)
      exact copyForest_frame children rel dest ex
        (if (fs dest).isSome then fs else mkdirRecursive fs dest) p e
        (ensureDir_some fs dest p e hp) hnf
/-- Frame property of the child-copy loop. -/
theorem copyForest_frame (f : FsForest) (rel dest : String) (ex : List String)
    (fs : FS) (p : String) (e : Entry) (hp : fs p = some e)
    (hnf : p ∉ destPathsF f dest) : (copyForest f rel dest ex fs).1 p = some e := by
cases f with
| nil => exact hp
| cons name t rest =>
    rw [copyForest]
    simp only []
    have hsplit : p ∉ destPathsT t (joinPath dest name) ∧ p ∉ destPathsF rest dest := by
      constructor <;> intro hmem <;> refine hnf ?_
      · rw [destPathsF]
        exact List.mem_append_left _ hmem
      · rw [destPathsF]
        exact List.mem_append_right _ hmem
    exact copyForest_frame rest rel dest ex
      (copyNode t (joinPath rel name) (joinPath dest name) ex fs).1 p e
      (copyNode_frame t (joinPath rel name) (joinPath dest name) ex fs p e hp hsplit.1)
      hsplit.2
end

/-- C8: destination entries that are not destination paths of copied
source entries — such as a pre-existing `extra.txt` — still exist with
unmodified content after the copy: the copy never deletes or alters any
destination entry other than the ones it copies from the source. -/
theorem c8_preexisting_entries_untouched (t : FsTree) (rel dest : String)
    (ex : List String) (fs : FS) (p : String) (e : Entry) (hp : fs p = some e)
    (hnp : p ∉ destPathsT t dest) :
    (copyRecursiveSync (some t) rel dest ex fs).1 p = some e :=
copyNode_frame t rel dest ex fs p e hp hnp

/-- C8 witness: a pre-existing `/dest/extra.txt` survives the copy of
`treeEx` into `/dest` with its content intact. -/
theorem c8_preexisting_entries_untouched_witness :
    fsExtraEx "/dest/extra.txt" = some (.file "hello") ∧
    "/dest/extra.txt" ∉ destPathsT treeEx "/dest" ∧
    (copyRecursiveSync (some treeEx) "src" "/dest" [] fsExtraEx).1 "/dest/extra.txt"
      = some (.file "hello") :=
⟨by decide, by decide,
 c8_preexisting_entries_untouched treeEx "src" "/dest" [] fsExtraEx
   "/dest/extra.txt" (.file "hello") (by decide) (by decide)⟩

/-- C2: for every template manifest and answers record, the transformed
manifest has a non-empty name (given the destination basename is
non-empty, as it is for any real destination directory), version exactly
`0.1.0` regardless of the template version, and no `bin`, `author`,
`repository`, `bugs` or `homepage` field, even when the template had
them. -/
theorem c2_transform_fixed_fields (pkg : PackageJson) (answers : Answers)
    (destRootName : String) (h : destRootName ≠ "") :
    (transformManifest pkg answers destRootName).name ≠ "" ∧
    (transformManifest pkg answers destRootName).version = "0.1.0" ∧
    (transformManifest pkg answers destRootName).bin = none ∧
    (transformManifest pkg answers destRootName).author = none ∧
    (transformManifest pkg answers destRootName).repository = none ∧
    (transformManifest pkg answers destRootName).bugs = none ∧
    (transformManifest pkg answers destRootName).homepage = none := by
refine ⟨?_, rfl, rfl, rfl, rfl, rfl, rfl⟩
show (if answers.projectName = "" then destRootName else answers.projectName) ≠ ""
split
· exact h
· next hne => exact hne

/-- C2 witness: the fixture template (version `9.9.9`, with `bin`,
`author`, `repository`, `bugs`, `homepage`) and answers `foo`/`bar`. -/
theorem c2_transform_fixed_fields_witness :
    ("app" : String) ≠ "" ∧
    ((transformManifest pkgEx answersEx "app").name ≠ "" ∧
     (transformManifest pkgEx answersEx "app").version = "0.1.0" ∧
     (transformManifest pkgEx answersEx "app").bin = none ∧
     (transformManifest pkgEx answersEx "app").author = none ∧
     (transformManifest pkgEx answersEx "app").repository = none ∧
     (transformManifest pkgEx answersEx "app").bugs = none ∧
     (transformManifest pkgEx answersEx "app").homepage = none) :=
⟨by decide, c2_transform_fixed_fields pkgEx answersEx "app" (by decide)⟩

/-- C6: the transformed name is `answers.projectName` when that is
non-empty and the destination basename otherwise; with a non-empty
destination basename the resulting name is therefore always non-empty. -/
theorem c6_transform_name_rule (pkg : PackageJson) (answers : Answers)
    (destRootName : String) :
    (answers.projectName ≠ "" →
      (transformManifest pkg answers destRootName).name = answers.projectName) ∧
    (answers.projectName = "" →
      (transformManifest pkg answers destRootName).name = destRootName) ∧
    (destRootName ≠ "" → (transformManifest pkg answers destRootName).name ≠ "") := by
refine ⟨?_, ?_, ?_⟩
· intro hne
  show (if answers.projectName = "" then destRootName else answers.projectName) = _
  rw [if_neg hne]
· intro he
  show (if answers.projectName = "" then destRootName else answers.projectName) = _
  rw [if_pos he]
· intro h
  show (if answers.projectName = "" then destRootName else answers.projectName) ≠ ""
  split
  · exact h
  · next hne => exact hne

/-- C6 witness: name `foo` when the answer is non-empty, the basename
`app` when the answer is empty, and non-empty either way. -/
theorem c6_transform_name_rule_witness :
    (transformManifest pkgEx answersEx "app").name = "foo" ∧
    (transformManifest pkgEx answersEmptyEx "app").name = "app" ∧
    (transformManifest pkgEx answersEmptyEx "app").name ≠ "" :=
⟨(c6_transform_name_rule pkgEx answersEx "app").1 (by decide),
 (c6_transform_name_rule pkgEx answersEmptyEx "app").2.1 rfl,
 (c6_transform_name_rule pkgEx answersEmptyEx "app").2.2 (by decide)⟩

/-- C9: a truthy build script — in particular the multi-step template
build command — is replaced by the single-step `tsc`; a manifest with no
`scripts` object or no `build` entry gains none. -/
theorem c9_build_script_rewrite (pkg : PackageJson) (answers : Answers)
    (destRootName : String) :
    (∀ sc b, pkg.scripts = some sc → sc.build = some b → b ≠ "" →
      (transformManifest pkg answers destRootName).scripts
        = some { sc with build := some "tsc" }) ∧
    (pkg.scripts = none → (transformManifest pkg answers destRootName).scripts = none) ∧
    (∀ sc, pkg.scripts = some sc → sc.build = none →
      (transformManifest pkg answers destRootName).scripts = some sc) := by
refine ⟨?_, ?_, ?_⟩
· intro sc b hsc hb hne
  show (match pkg.scripts with
        | none => none
        | some sc =>
            some (match sc.build with
                  | some b => if b = "" then sc else { sc with build := some "tsc" }
                  | none => sc)) = _
  rw [hsc]
  simp only []
  rw [hb]
  simp only []
  rw [if_neg hne]
· intro hs
  show (match pkg.scripts with
        | none => none
        | some sc =>
            some (match sc.build with
                  | some b => if b = "" then sc else { sc with build := some "tsc" }
                  | none => sc)) = _
  rw [hs]
· intro sc hsc hb
  show (match pkg.scripts with
        | none => none
        | some sc =>
            some (match sc.build with
                  | some b => if b = "" then sc else { sc with build := some "tsc" }
                  | none => sc)) = _
  rw [hsc]
  simp only []
  rw [hb]

/-- C9 witness: the fixture multi-step build command becomes plain `tsc`,
with the other script entries untouched. -/
theorem c9_build_script_rewrite_witness :
    pkgEx.scripts = some scEx ∧
    scEx.build = some "tsc && node patch-initialize.js" ∧
    (transformManifest pkgEx answersEx "app").scripts
      = some { scEx with build := some "tsc" } :=
⟨rfl, rfl,
 (c9_build_script_rewrite pkgEx answersEx "app").1 scEx
   "tsc && node patch-initialize.js" rfl rfl (by decide)⟩

/-- C4: the manifest step fails with a read error naming the template
manifest path when that file is missing or unparsable, fails with a write
error naming the destination manifest path when the write cannot be
persisted, leaves the destination untouched in every failure case, and on
success persists the complete transformed manifest — never a half-written
one. -/
theorem c4_manifest_error_handling (templateDir targetDir : String)
    (templateRead : Option PackageJson) (writable : Bool)
    (destPrev : Option PackageJson) (answers : Answers) :
    (templateRead = none →
      updatePackageJson templateDir targetDir templateRead writable destPrev answers
        = (destPrev, .errorLogged (.manifestReadError (joinPath templateDir "package.json")))) ∧
    (∀ pkg, templateRead = some pkg → writable = false →
      updatePackageJson templateDir targetDir templateRead writable destPrev answers
        = (destPrev, .errorLogged (.manifestWriteError (joinPath targetDir "package.json")))) ∧
    (∀ pkg, templateRead = some pkg → writable = true →
      updatePackageJson templateDir targetDir templateRead writable destPrev answers
        = (some (transformManifest pkg answers (basename targetDir)), .ok)) ∧
    ((updatePackageJson templateDir targetDir templateRead writable destPrev answers).1
        = destPrev ∨
      ∃ pkg, templateRead = some pkg ∧
        (updatePackageJson templateDir targetDir templateRead writable destPrev answers).1
          = some (transformManifest pkg answers (basename targetDir))) := by
refine ⟨?_, ?_, ?_, ?_⟩
· intro h
  rw [h]
  rfl
· intro pkg h hw
  rw [h, hw]
  rfl
· intro pkg h hw
  rw [h, hw]
  rfl
· cases templateRead with
  | none => exact Or.inl rfl
  | some pkg =>
      cases writable with
      | false => exact Or.inl rfl
      | true => exact Or.inr ⟨pkg, rfl, rfl⟩

/-- C4 witness: read failure, write failure and success at concrete
arguments, each reporting the corresponding path and leaving the
destination intact on failure. -/
theorem c4_manifest_error_handling_witness :
    updatePackageJson "/tpl" "/home/u/app" none true (some pkgEx) answersEx
      = (some pkgEx, .errorLogged (.manifestReadError "/tpl/package.json")) ∧
    updatePackageJson "/tpl" "/home/u/app" (some pkgEx) false (some pkgEx) answersEx
      = (some pkgEx, .errorLogged (.manifestWriteError "/home/u/app/package.json")) ∧
    updatePackageJson "/tpl" "/home/u/app" (some pkgEx) true none answersEx
      = (some (transformManifest pkgEx answersEx "app"), .ok) :=
⟨(c4_manifest_error_handling "/tpl" "/home/u/app" none true (some pkgEx) answersEx).1 rfl,
 (c4_manifest_error_handling "/tpl" "/home/u/app" (some pkgEx) false (some pkgEx)
   answersEx).2.1 pkgEx rfl rfl,
 (c4_manifest_error_handling "/tpl" "/home/u/app" (some pkgEx) true none
   answersEx).2.2.1 pkgEx rfl rfl⟩

end McpTemplate
